import Mathlib

set_option maxRecDepth 8000

/-!
Shallow embedding of the NOAA NDBC ingestion pipeline of this repository.

Embedded sources:
- src/supabase/functions/ingest-ndbc/index.ts, the Supabase edge function
  holding the helpers safeFloat, parseCoord, classifyRegion, the parsers
  parseStations and parseLatestObs, and the batching handler.
- src/supabase/migrations/001_create_ocean_schema.sql, the schema with the
  unique keys stations.id and idx_measurements_station_time, and the RPC
  function get_stations_in_bbox.

Modelling conventions:
- JavaScript strings are modelled by Lean String, a packed list of
  characters; every string helper used by the source (trim, split,
  startsWith, substring) is defined below over the character list, with the
  JavaScript semantics spelled out at the definition.
- JavaScript numbers are modelled exactly: NaN, signed Infinity, or an
  exact rational (inductive JSNum).  Binary floating point rounding and
  exponent overflow are not modelled; a decimal numeral is represented by
  the exact rational it denotes.
- The relational store is modelled as a key-indexed partial map, which is
  what the primary key stations.id and the unique index
  idx_measurements_station_time on (station_id, observed_at) make of the
  two tables.  The metadata columns created_at, updated_at, ingested_at and
  the surrogate measurement id are outside the model; the idempotency claim
  explicitly excludes updated_at.
- The store client can report a failed write either through the error field
  of its result (never thrown) or through a rejected promise (thrown at the
  await).  Both channels appear below as WriteOutcome.
-/

/-- Character class of the regex escape for whitespace, restricted to the
whitespace characters that can occur in the two text feeds. -/
def isWS (c : Char) : Bool := c == ' ' || c == '\t' || c == '\n' || c == '\r'

/-- Right half of JavaScript String.prototype.trim over a character list. -/
def trimRightChars (l : List Char) : List Char := (l.reverse.dropWhile isWS).reverse

/-- JavaScript String.prototype.trim over a character list. -/
def trimChars (l : List Char) : List Char := trimRightChars (l.dropWhile isWS)

/-- JavaScript String.prototype.trim. -/
def jsTrim (s : String) : String := String.mk (trimChars s.data)

/-- JavaScript String.prototype.split with a one-character separator:
every occurrence of the separator ends a piece, empty pieces are kept. -/
def splitOnChar (sep : Char) : List Char → List (List Char)
  | [] => [[]]
  | c :: cs =>
    if c = sep then [] :: splitOnChar sep cs
    else
      match splitOnChar sep cs with
      | [] => [[c]]
      | h :: t => (c :: h) :: t

/-- JavaScript String.prototype.split at the String level. -/
def jsSplit (sep : Char) (s : String) : List String :=
  (splitOnChar sep s.data).map String.mk

/-- JavaScript String.prototype.startsWith. -/
def strStartsWith (s p : String) : Bool := p.data.isPrefixOf s.data

/-- JavaScript String.prototype.substring with arguments 0 and n. -/
def jsSubstrTo (n : Nat) (s : String) : String := String.mk (s.data.take n)

/-- The anchored five-digit identifier test of the source, a regex over the
whole string: length five and every character a decimal digit. -/
def is5Digits (s : String) : Bool := s.data.length == 5 && s.data.all Char.isDigit

/-- A JavaScript number as this pipeline can observe it: NaN, Infinity with
a sign (true is positive), or an exact finite value. -/
inductive JSNum where
  | nan : JSNum
  | inf : Bool → JSNum
  | num : ℚ → JSNum
deriving DecidableEq

/-- JavaScript unary minus on numbers. -/
def JSNum.neg : JSNum → JSNum
  | .nan => .nan
  | .inf p => .inf (!p)
  | .num q => .num (-q)

/-- JavaScript Number.isFinite. -/
def JSNum.isFinite : JSNum → Bool
  | .num _ => true
  | _ => false

/-- Numeric value of a decimal digit character. -/
def digitVal (c : Char) : Nat := c.toNat - '0'.toNat

/-- Value of a run of decimal digit characters, most significant first. -/
def digitsToNat (ds : List Char) : Nat := ds.foldl (fun n c => 10 * n + digitVal c) 0

/-- JavaScript parseFloat over a character list: skip leading whitespace,
read an optional sign, then the longest prefix that is either the literal
Infinity or a decimal numeral (integer digits, optional point and fraction
digits, optional exponent); if no such prefix exists the result is NaN.
The numeral value is taken exactly: with integer part i, fraction digits f
of length L and signed exponent x, the value is the rational
(i * 10 ^ L + f) * 10 ^ x / 10 ^ L, built here with mkRat so that the
whole function evaluates by reduction. -/
def parseFloatChars (cs0 : List Char) : JSNum :=
  let cs1 := cs0.dropWhile isWS
  let sgn : Bool × List Char :=
    match cs1 with
    | '+' :: r => (true, r)
    | '-' :: r => (false, r)
    | r => (true, r)
  let pos := sgn.1
  let cs2 := sgn.2
  if ['I', 'n', 'f', 'i', 'n', 'i', 't', 'y'].isPrefixOf cs2 then JSNum.inf pos
  else
    let ip := cs2.takeWhile Char.isDigit
    let cs3 := cs2.drop ip.length
    let fsplit : List Char × List Char :=
      match cs3 with
      | '.' :: r => (r.takeWhile Char.isDigit, r.drop (r.takeWhile Char.isDigit).length)
      | r => ([], r)
    let fp := fsplit.1
    let cs4 := fsplit.2
    if ip = [] ∧ fp = [] then JSNum.nan
    else
      let den : Nat := 10 ^ fp.length
      let mnum : Nat := digitsToNat ip * den + digitsToNat fp
      let ex : Int :=
        match cs4 with
        | c :: r =>
          if c = 'e' ∨ c = 'E' then
            match r with
            | '+' :: r2 => (digitsToNat (r2.takeWhile Char.isDigit) : Int)
            | '-' :: r2 => -(digitsToNat (r2.takeWhile Char.isDigit) : Int)
            | r2 => (digitsToNat (r2.takeWhile Char.isDigit) : Int)
          else 0
        | [] => 0
      let q : ℚ :=
        if 0 ≤ ex then mkRat (mnum * 10 ^ ex.toNat) den
        else mkRat mnum (den * 10 ^ (-ex).toNat)
      JSNum.num (if pos then q else -q)

/-- JavaScript parseFloat. -/
def parseFloat (s : String) : JSNum := parseFloatChars s.data

/-- safeFloat of src/supabase/functions/ingest-ndbc/index.ts: empty input,
the missing-data token MM, a NaN parse, or one of the sentinel values 99,
999, 9999 all give null; otherwise the parsed number is returned. -/
def safeFloat (val : String) : Option JSNum :=
  if val = "" ∨ jsTrim val = "MM" ∨ jsTrim val = "" then none
  else
    let f := parseFloat (jsTrim val)
    if f = JSNum.nan ∨ f = JSNum.num 99 ∨ f = JSNum.num 999 ∨ f = JSNum.num 9999 then none
    else some f

/-- Character class of the first capture group of the coordinate regex:
a decimal digit or a point. -/
def isDigitDot (c : Char) : Bool := c.isDigit || c == '.'

/-- Character class of the second capture group of the coordinate regex
with the ignore-case flag: a compass letter in either case. -/
def isDirChar (c : Char) : Bool :=
  c == 'N' || c == 'S' || c == 'E' || c == 'W' ||
  c == 'n' || c == 's' || c == 'e' || c == 'w'

/-- One attempt of the coordinate regex at the current position: a longest
nonempty run of digits and points, then a longest run of whitespace, then a
compass letter.  The three character classes are pairwise disjoint, so this
greedy reading coincides with the backtracking semantics of the regex
engine. -/
def matchNumDirAt (cs : List Char) : Option (List Char × Char) :=
  let numRun := cs.takeWhile isDigitDot
  if numRun = [] then none
  else
    match (cs.drop numRun.length).dropWhile isWS with
    | [] => none
    | d :: _ => if isDirChar d then some (numRun, d) else none

/-- Leftmost match of the unanchored coordinate regex: try every start
position from the left, as the regex engine does for an unanchored
pattern. -/
def regexFindNumDir : List Char → Option (List Char × Char)
  | [] => none
  | c :: cs =>
    match matchNumDirAt (c :: cs) with
    | some r => some r
    | none => regexFindNumDir cs

/-- parseCoord of src/supabase/functions/ingest-ndbc/index.ts: match the
coordinate regex anywhere in the token, parse the numeric group, and negate
when the direction letter is S or W in either case (the source upper-cases
the letter first; the four-way test below is the same function). -/
def parseCoord (coord : String) : Option JSNum :=
  match regexFindNumDir coord.data with
  | none => none
  | some (numChars, d) =>
    let v := parseFloatChars numChars
    if d = 'S' ∨ d = 's' ∨ d = 'W' ∨ d = 'w' then some v.neg else some v

/-- REGION_MAP of the source, in its textual order. -/
def REGION_MAP : List (String × String) :=
  [("41", "atlantic"), ("42", "gulf"), ("44", "atlantic"), ("45", "great_lakes"),
   ("46", "pacific"), ("51", "pacific"), ("52", "pacific")]

/-- classifyRegion of the source: first entry of REGION_MAP whose key is a
prefix of the identifier, with fallback value other. -/
def classifyRegion (stationId : String) : String :=
  match REGION_MAP.find? (fun e => strStartsWith stationId e.1) with
  | some e => e.2
  | none => "other"

/-- StationRow of the source: one parsed station record. -/
structure StationRow where
  id : String
  name : String
  latitude : JSNum
  longitude : JSNum
  region : String
  station_type : String
  is_active : Bool
deriving DecidableEq

/-- MeasurementRow of the source: one parsed observation record.  The
timestamp is the ISO string the source stores; its construction from the
date columns is not needed by any claim and is not modelled. -/
structure MeasurementRow where
  station_id : String
  observed_at : String
  wind_direction : Option JSNum
  wind_speed : Option JSNum
  wind_gust : Option JSNum
  wave_height : Option JSNum
  dominant_period : Option JSNum
  wave_direction : Option JSNum
  pressure : Option JSNum
  air_temp : Option JSNum
  water_temp : Option JSNum
  dewpoint : Option JSNum
  visibility : Option JSNum
deriving DecidableEq

/-- The field list one station-table line is reduced to in parseStations:
split the trimmed line on the pipe, trim each piece, drop empty pieces. -/
def stationParts (line : String) : List String :=
  ((jsSplit '|' (jsTrim line)).map jsTrim).filter (fun p => p ≠ "")

/-- Body of the parseStations loop for one line.  The guards and field
tests are those of the source in source order; stationParts line is the
parts value the source computes from the trimmed line. -/
def parseStationLine (line : String) : Option StationRow :=
  let trimmed := jsTrim line
  if trimmed = "" ∨ strStartsWith trimmed "#" ∨ strStartsWith trimmed "|--" then none
  else
    let parts := stationParts line
    if parts.length < 4 then none
    else
      let stationId := parts.getD 0 ""
      if ¬ is5Digits stationId then none
      else
        match parseCoord (parts.getD 2 ""), parseCoord (parts.getD 3 "") with
        | some lat, some lon =>
          some { id := stationId
                 name := jsSubstrTo 200 (parts.getD 1 "")
                 latitude := lat
                 longitude := lon
                 region := classifyRegion stationId
                 station_type := "buoy"
                 is_active := true }
        | some _, none => none
        | none, _ => none

/-- parseStations of the source: the per-line body over the newline split,
skipped lines contributing nothing. -/
def parseStations (text : String) : List StationRow :=
  (jsSplit '\n' text).filterMap parseStationLine

/-- The station table keyed by the primary key stations.id. -/
abbrev StationDB := String → Option StationRow

/-- The measurements table keyed by the unique index
idx_measurements_station_time on (station_id, observed_at). -/
abbrev MeasDB := String × String → Option MeasurementRow

/-- Natural key of a station write. -/
def stationKey (r : StationRow) : String := r.id

/-- Natural key of a measurement write. -/
def measKey (m : MeasurementRow) : String × String := (m.station_id, m.observed_at)

/-- One upsert against a key-indexed table: insert, or overwrite the row
holding the same natural key. -/
def upsertBy {α κ : Type} [DecidableEq κ] (key : α → κ) (db : κ → Option α) (r : α) :
    κ → Option α :=
  fun k => if k = key r then some r else db k

/-- Sequential upserts of a record list, in list order. -/
def applyUpsertsBy {α κ : Type} [DecidableEq κ] (key : α → κ) (db : κ → Option α)
    (rs : List α) : κ → Option α :=
  rs.foldl (upsertBy key) db

/-- Station upserts of one batch. -/
def applyStationUpserts (db : StationDB) (rs : List StationRow) : StationDB :=
  applyUpsertsBy stationKey db rs

/-- Measurement upserts of one batch. -/
def applyMeasUpserts (db : MeasDB) (rs : List MeasurementRow) : MeasDB :=
  applyUpsertsBy measKey db rs

/-- The batch slicing of the handler loops: slice(i, i + n) for i stepping
by n.  Both call sites pass a positive literal batch size. -/
def sliceBatches {α : Type} (n : Nat) (l : List α) : List (List α) :=
  match l with
  | [] => []
  | x :: xs => ((x :: xs).take n) :: sliceBatches n (xs.drop (n - 1))
termination_by l.length
decreasing_by simp [List.length_drop]; omega

/-- The failure-free write path of the handler: upsert every batch of the
sliced list in order.  The station batch size of the source is 200 and the
measurement batch size is 500. -/
def stationPhase (db : StationDB) (rows : List StationRow) : StationDB :=
  (sliceBatches 200 rows).foldl applyStationUpserts db

/-- The failure-free measurement write path of the handler. -/
def measPhase (db : MeasDB) (rows : List MeasurementRow) : MeasDB :=
  (sliceBatches 500 rows).foldl applyMeasUpserts db

/-- Outcome of one batch write against the store: a clean success, an error
reported in the result value of the client (the statement wrote nothing,
nothing is thrown), or a rejected promise thrown at the await (again the
batch writes nothing). -/
inductive WriteOutcome where
  | ok : WriteOutcome
  | dbError : WriteOutcome
  | threw : WriteOutcome
deriving DecidableEq

/-- The station batch loop of the handler.  There is no try block around
the station upsert, so a thrown batch ends the loop at once (the Bool of
the result is false).  The loop never reads the error field of the client
result, so a dbError batch still adds its length to the counter.  The
counter is stationsCount of the source. -/
def stationLoop (oc : Nat → WriteOutcome) (batches : List (List StationRow))
    (db : StationDB) (cnt : Nat) : StationDB × Nat × Bool :=
  match batches with
  | [] => (db, cnt, true)
  | b :: bs =>
    match oc 0 with
    | .threw => (db, cnt, false)
    | .ok => stationLoop (fun i => oc (i + 1)) bs (applyStationUpserts db b) (cnt + b.length)
    | .dbError => stationLoop (fun i => oc (i + 1)) bs db (cnt + b.length)

/-- The measurement batch loop of the handler.  The upsert sits in a try
block, so a thrown batch is logged and skipped and the loop continues; as
in the station loop the error field of the client result is never read, so
a dbError batch adds its length to measurementsCount. -/
def measLoop (oc : Nat → WriteOutcome) (batches : List (List MeasurementRow))
    (db : MeasDB) (cnt : Nat) : MeasDB × Nat :=
  match batches with
  | [] => (db, cnt)
  | b :: bs =>
    match oc 0 with
    | .threw => measLoop (fun i => oc (i + 1)) bs db cnt
    | .ok => measLoop (fun i => oc (i + 1)) bs (applyMeasUpserts db b) (cnt + b.length)
    | .dbError => measLoop (fun i => oc (i + 1)) bs db (cnt + b.length)

/-- One ingestion_log record: status and the two counters.  The time
columns are outside the model. -/
structure LogRec where
  status : String
  stations_count : Nat
  measurements_count : Nat
deriving DecidableEq

/-- Inputs of one handler run.  A fetch is either the fetched text (for the
station feed) or the parsed rows (for the observation feed, whose parser no
claim examines), or the message of a thrown network error.  logInsertOk
says whether the opening insert into ingestion_log returned an id; the
source reads the id without checking the error field, so a failed insert
simply leaves logId undefined. -/
structure RunInput where
  stationFetch : Except String String
  obsFetch : Except String (List MeasurementRow)
  stationOutcomes : Nat → WriteOutcome
  measOutcomes : Nat → WriteOutcome
  logInsertOk : Bool

/-- Observable state of a finished handler run: the two tables, the
ingestion_log record if one was created, and the HTTP reply. -/
structure RunResult where
  sdb : StationDB
  mdb : MeasDB
  log : Option LogRec
  httpStatus : Nat
  httpOk : Bool

/-- The ingestion_log record right after the opening insert. -/
def initialLog (inp : RunInput) : Option LogRec :=
  if inp.logInsertOk then some { status := "running", stations_count := 0, measurements_count := 0 }
  else none

/-- Control flow of the Deno.serve handler.  Any throw after the opening
log insert lands in the catch block, which only builds the 500 reply: the
log record is never updated on that path, so it keeps the status running it
was inserted with.  Only the success path updates the record, to status
success with the two counters. -/
def runHandler (inp : RunInput) (sdb : StationDB) (mdb : MeasDB) : RunResult :=
  match inp.stationFetch with
  | .error _ => { sdb := sdb, mdb := mdb, log := initialLog inp, httpStatus := 500, httpOk := false }
  | .ok stext =>
    let srows := parseStations stext
    let sres := stationLoop inp.stationOutcomes (sliceBatches 200 srows) sdb 0
    if sres.2.2 = false then
      { sdb := sres.1, mdb := mdb, log := initialLog inp, httpStatus := 500, httpOk := false }
    else
      match inp.obsFetch with
      | .error _ =>
        { sdb := sres.1, mdb := mdb, log := initialLog inp, httpStatus := 500, httpOk := false }
      | .ok mrows =>
        let mres := measLoop inp.measOutcomes (sliceBatches 500 mrows) mdb 0
        let finalLog : Option LogRec :=
          if inp.logInsertOk then
            some { status := "success", stations_count := sres.2.1, measurements_count := mres.2 }
          else none
        { sdb := sres.1, mdb := mres.1, log := finalLog, httpStatus := 200, httpOk := true }

/-- A stations table row at the schema level of the migration: the columns
the bounding box query touches.  DOUBLE PRECISION is modelled as an exact
rational, the schema declares no range constraint on the coordinates. -/
structure DbStation where
  id : String
  name : String
  latitude : ℚ
  longitude : ℚ
  region : String
  station_type : String
  is_active : Bool
deriving DecidableEq

/-- A measurements table row restricted to the columns the bounding box
query returns; TIMESTAMPTZ is modelled as an integer instant. -/
structure DbMeasurement where
  station_id : String
  observed_at : Int
  water_temp : Option ℚ
  wave_height : Option ℚ
  wind_speed : Option ℚ
deriving DecidableEq

/-- One output row of get_stations_in_bbox. -/
structure BBoxRow where
  station_id : String
  station_name : String
  latitude : ℚ
  longitude : ℚ
  region : String
  station_type : String
  water_temp : Option ℚ
  wave_height : Option ℚ
  wind_speed : Option ℚ
  observed_at : Option Int
deriving DecidableEq

/-- The lateral subquery of the RPC functions: the measurement of the given
station with the greatest observed_at, if any.  The unique index makes the
greatest timestamp unique; on equal timestamps the earlier row is kept,
matching a LIMIT 1 over an arbitrary tie order. -/
def latestMeasurement (ms : List DbMeasurement) (sid : String) : Option DbMeasurement :=
  (ms.filter (fun m => m.station_id = sid)).foldl
    (fun acc m =>
      match acc with
      | none => some m
      | some a => if a.observed_at < m.observed_at then some m else some a)
    none

/-- The select list of get_stations_in_bbox: station columns plus the
columns of the left-joined latest measurement, null when there is none. -/
def bboxRowOf (s : DbStation) (m : Option DbMeasurement) : BBoxRow :=
  { station_id := s.id
    station_name := s.name
    latitude := s.latitude
    longitude := s.longitude
    region := s.region
    station_type := s.station_type
    water_temp := m.bind DbMeasurement.water_temp
    wave_height := m.bind DbMeasurement.wave_height
    wind_speed := m.bind DbMeasurement.wind_speed
    observed_at := m.map DbMeasurement.observed_at }

/-- Name order of the ORDER BY clause; the collation is modelled as the
lexicographic order on strings. -/
def bboxLE (a b : BBoxRow) : Prop := a.station_name ≤ b.station_name

instance : DecidableRel bboxLE := fun a b => inferInstanceAs (Decidable (a.station_name ≤ b.station_name))

instance : IsTotal BBoxRow bboxLE := ⟨fun a b => le_total a.station_name b.station_name⟩

instance : IsTrans BBoxRow bboxLE := ⟨fun _ _ _ hab hbc => le_trans hab hbc⟩

/-- A schema-level station used by concrete witnesses. -/
def sampleDbStation : DbStation :=
  { id := "41001", name := "A", latitude := 10, longitude := 20
    region := "atlantic", station_type := "buoy", is_active := true }

/-- get_stations_in_bbox of the migration: active stations with latitude
BETWEEN p_min_lat AND p_max_lat and longitude BETWEEN p_min_lon AND
p_max_lon (BETWEEN is inclusive on both ends), each left-joined to its
latest measurement, ordered by name. -/
def get_stations_in_bbox (pminLat pminLon pmaxLat pmaxLon : ℚ)
    (stations : List DbStation) (measurements : List DbMeasurement) : List BBoxRow :=
  let sel := stations.filter (fun s =>
    s.is_active && decide (pminLat ≤ s.latitude) && decide (s.latitude ≤ pmaxLat)
      && decide (pminLon ≤ s.longitude) && decide (s.longitude ≤ pmaxLon))
  List.insertionSort bboxLE (sel.map (fun s => bboxRowOf s (latestMeasurement measurements s.id)))

/-- Last record of a list holding a given key, the survivor of a sequence
of keyed upserts. -/
def lastWith {α κ : Type} [DecidableEq κ] (key : α → κ) (k : κ) : List α → Option α
  | [] => none
  | r :: rs => (lastWith key k rs).or (if k = key r then some r else none)

/-- Sum of the lengths of the batches whose write did not throw: exactly
what the handler counters accumulate. -/
def attemptedCount {α : Type} (oc : Nat → WriteOutcome) : List (List α) → Nat
  | [] => 0
  | b :: bs => (if oc 0 = WriteOutcome.threw then 0 else b.length) + attemptedCount (fun i => oc (i + 1)) bs

/-- The batches whose write cleanly succeeded, in order: exactly the
batches whose rows reach the table. -/
def writtenBatches {α : Type} (oc : Nat → WriteOutcome) : List (List α) → List (List α)
  | [] => []
  | b :: bs =>
    (if oc 0 = WriteOutcome.ok then [b] else []) ++ writtenBatches (fun i => oc (i + 1)) bs

/-- Acceptance condition of one station-table line as the specification
states it: at least four fields after the split and trims, a five-digit
first field, and both coordinate tokens parse. -/
def stationLineAccepted (line : String) : Prop :=
  4 ≤ (stationParts line).length ∧
  is5Digits ((stationParts line).getD 0 "") = true ∧
  (parseCoord ((stationParts line).getD 2 "")).isSome = true ∧
  (parseCoord ((stationParts line).getD 3 "")).isSome = true

instance : DecidablePred stationLineAccepted := fun _ =>
  inferInstanceAs (Decidable (_ ∧ _ ∧ _ ∧ _))

/-- A station record used by concrete counterexamples. -/
def sampleStationA : StationRow :=
  { id := "41001", name := "A", latitude := JSNum.num 10, longitude := JSNum.num 20
    region := "atlantic", station_type := "buoy", is_active := true }

/-- A second station record used by concrete counterexamples. -/
def sampleStationB : StationRow :=
  { id := "41002", name := "B", latitude := JSNum.num 11, longitude := JSNum.num 21
    region := "atlantic", station_type := "buoy", is_active := true }

/-- A measurement record used by concrete counterexamples. -/
def sampleMeasurement : MeasurementRow :=
  { station_id := "41001", observed_at := "2026-01-01T00:00:00.000Z"
    wind_direction := none, wind_speed := none, wind_gust := none
    wave_height := none, dominant_period := none, wave_direction := none
    pressure := none, air_temp := none, water_temp := none
    dewpoint := none, visibility := none }

/-- The empty station table. -/
def emptyStationDB : StationDB := fun _ => none

/-- The empty measurements table. -/
def emptyMeasDB : MeasDB := fun _ => none

/-- The record the station parser produces from the well-formed example
line of the specification, used by concrete witnesses. -/
def c6SampleRow : StationRow :=
  { id := "41001", name := "LLNR 815", latitude := JSNum.num (mkRat 347 10)
    longitude := JSNum.num (-(mkRat 727 10)), region := "atlantic"
    station_type := "buoy", is_active := true }

/-- A run whose station fetch throws a network error, used by concrete
counterexamples and witnesses. -/
def c3SampleInput : RunInput :=
  { stationFetch := Except.error "network error"
    obsFetch := Except.ok []
    stationOutcomes := fun _ => WriteOutcome.ok
    measOutcomes := fun _ => WriteOutcome.ok
    logInsertOk := true }

/-! Helper lemmas. -/

theorem list_find_eq_of_agree {α : Type} {p q : α → Bool} :
    ∀ {l : List α}, (∀ a ∈ l, p a = q a) → l.find? p = l.find? q := by
  intro l
  induction l with
  | nil => intro _; rfl
  | cons a l ih =>
    intro h
    have ha := h a (by simp)
    simp only [List.find?]
    rw [ha]
    cases q a with
    | true => rfl
    | false => exact ih (fun b hb => h b (by simp [hb]))

theorem isPrefixOf_pair_take (c₁ c₂ a b : Char) (t : List Char) :
    [c₁, c₂].isPrefixOf (a :: b :: t) = [c₁, c₂].isPrefixOf [a, b] := by
  simp [List.isPrefixOf]

theorem prefix2_iff (c₁ c₂ : Char) (l : List Char) :
    [c₁, c₂].isPrefixOf l = true ↔ ∃ t, l = c₁ :: c₂ :: t := by
  cases l with
  | nil => simp [List.isPrefixOf]
  | cons a l =>
    cases l with
    | nil => simp [List.isPrefixOf]
    | cons b t =>
      simp only [List.isPrefixOf, Bool.and_eq_true, beq_iff_eq]
      constructor
      · rintro ⟨rfl, rfl, -⟩
        exact ⟨t, rfl⟩
      · rintro ⟨t', ht⟩
        injection ht with h1 ht
        injection ht with h2 _
        refine ⟨h1.symm, h2.symm, ?_⟩
        simp [List.isPrefixOf]

theorem classify_take_two (l : List Char) :
    classifyRegion (String.mk l) = classifyRegion (String.mk (l.take 2)) := by
  match l with
  | [] => rfl
  | [a] => rfl
  | a :: b :: t =>
    show classifyRegion (String.mk (a :: b :: t)) = classifyRegion (String.mk [a, b])
    unfold classifyRegion
    rw [list_find_eq_of_agree (q := fun e => strStartsWith (String.mk [a, b]) e.1)]
    intro e he
    simp only [REGION_MAP, List.mem_cons, List.not_mem_nil, or_false] at he
    rcases he with rfl | rfl | rfl | rfl | rfl | rfl | rfl <;>
      exact isPrefixOf_pair_take _ _ a b t

theorem applyUpsertsBy_eval {α κ : Type} [DecidableEq κ] (key : α → κ) :
    ∀ (rs : List α) (db : κ → Option α) (k : κ),
      applyUpsertsBy key db rs k = (lastWith key k rs).or (db k) := by
  intro rs
  induction rs with
  | nil => intro db k; simp [applyUpsertsBy, lastWith]
  | cons r rs ih =>
    intro db k
    show applyUpsertsBy key (upsertBy key db r) rs k = _
    rw [ih]
    simp only [lastWith]
    rw [Option.or_assoc]
    congr 1
    by_cases h : k = key r
    · simp [upsertBy, h]
    · simp [upsertBy, h]

theorem applyUpsertsBy_twice {α κ : Type} [DecidableEq κ] (key : α → κ)
    (db : κ → Option α) (rs : List α) :
    applyUpsertsBy key (applyUpsertsBy key db rs) rs = applyUpsertsBy key db rs := by
  funext k
  rw [applyUpsertsBy_eval, applyUpsertsBy_eval]
  cases lastWith key k rs with
  | none => simp
  | some a => simp [Option.or]

theorem flatten_sliceBatches {α : Type} (n : Nat) (hn : 1 ≤ n) :
    ∀ l : List α, (sliceBatches n l).flatten = l := by
  have main : ∀ (fuel : Nat) (l : List α), l.length ≤ fuel → (sliceBatches n l).flatten = l := by
    intro fuel
    induction fuel with
    | zero =>
      intro l hl
      cases l with
      | nil => rw [sliceBatches]; rfl
      | cons x xs => simp at hl
    | succ m ih =>
      intro l hl
      cases l with
      | nil => rw [sliceBatches]; rfl
      | cons x xs =>
        rw [sliceBatches]
        simp only [List.flatten_cons]
        rw [ih (xs.drop (n - 1)) (by simp only [List.length_drop]; simp at hl; omega)]
        obtain ⟨k, rfl⟩ : ∃ k, n = k + 1 := ⟨n - 1, by omega⟩
        simp only [List.take_succ_cons, Nat.add_sub_cancel, List.cons_append,
          List.take_append_drop]
  exact fun l => main l.length l le_rfl

theorem stationPhase_eq (db : StationDB) (rows : List StationRow) :
    stationPhase db rows = applyStationUpserts db rows := by
  show List.foldl (fun d b => List.foldl (upsertBy stationKey) d b) db (sliceBatches 200 rows) =
    List.foldl (upsertBy stationKey) db rows
  rw [← List.foldl_flatten]
  rw [flatten_sliceBatches 200 (by omega) rows]

theorem measPhase_eq (db : MeasDB) (rows : List MeasurementRow) :
    measPhase db rows = applyMeasUpserts db rows := by
  show List.foldl (fun d b => List.foldl (upsertBy measKey) d b) db (sliceBatches 500 rows) =
    List.foldl (upsertBy measKey) db rows
  rw [← List.foldl_flatten]
  rw [flatten_sliceBatches 500 (by omega) rows]

/-! Claim theorems. -/

/-- C1: for every list of parsed station and measurement records, running
the write step twice with identical input leaves the persisted station and
measurement state equal to the state after running it once, because the
batched writes are upserts keyed on the station identifier and on the
(station identifier, observation timestamp) natural key; the state being a
key-indexed map, no duplicate rows can arise. -/
theorem c1_parse_and_write_idempotent :
    ∀ (srs : List StationRow) (mrs : List MeasurementRow) (sdb : StationDB) (mdb : MeasDB),
      stationPhase (stationPhase sdb srs) srs = stationPhase sdb srs ∧
      measPhase (measPhase mdb mrs) mrs = measPhase mdb mrs := by
  intro srs mrs sdb mdb
  constructor
  · simp only [stationPhase_eq]
    exact applyUpsertsBy_twice stationKey sdb srs
  · simp only [measPhase_eq]
    exact applyUpsertsBy_twice measKey mdb mrs

/-- C2: every numeric field string that is empty, the missing-data token
MM, non-numeric (a NaN parse), or equal to one of the sentinel values 99,
999, 9999 is normalized to no value by safeFloat; safeFloat never returns
a value equal to a sentinel, and returns zero only for a string that
genuinely parses to zero, never in place of a missing reading. -/
theorem c2_sentinel_normalization :
    ∀ s : String,
      ((s = "" ∨ jsTrim s = "MM" ∨ jsTrim s = "" ∨ parseFloat (jsTrim s) = JSNum.nan ∨
          parseFloat (jsTrim s) = JSNum.num 99 ∨ parseFloat (jsTrim s) = JSNum.num 999 ∨
          parseFloat (jsTrim s) = JSNum.num 9999) → safeFloat s = none) ∧
      (∀ x, safeFloat s = some x →
          x ≠ JSNum.num 99 ∧ x ≠ JSNum.num 999 ∧ x ≠ JSNum.num 9999) ∧
      (safeFloat s = some (JSNum.num 0) → parseFloat (jsTrim s) = JSNum.num 0) := by
  intro s
  unfold safeFloat
  by_cases h1 : s = "" ∨ jsTrim s = "MM" ∨ jsTrim s = ""
  · rw [if_pos h1]
    refine ⟨fun _ => rfl, ?_, ?_⟩
    · intro x hx
      exact Option.noConfusion hx
    · intro hx
      exact Option.noConfusion hx
  · rw [if_neg h1]
    by_cases h2 : parseFloat (jsTrim s) = JSNum.nan ∨ parseFloat (jsTrim s) = JSNum.num 99 ∨
        parseFloat (jsTrim s) = JSNum.num 999 ∨ parseFloat (jsTrim s) = JSNum.num 9999
    · rw [if_pos h2]
      refine ⟨fun _ => rfl, ?_, ?_⟩
      · intro x hx
        exact Option.noConfusion hx
      · intro hx
        exact Option.noConfusion hx
    · rw [if_neg h2]
      push_neg at h2
      refine ⟨?_, ?_, ?_⟩
      · intro h
        rcases h with h | h | h | h | h | h | h
        · exact absurd (Or.inl h) h1
        · exact absurd (Or.inr (Or.inl h)) h1
        · exact absurd (Or.inr (Or.inr h)) h1
        · exact absurd h h2.1
        · exact absurd h h2.2.1
        · exact absurd h h2.2.2.1
        · exact absurd h h2.2.2.2
      · intro x hx
        rw [← Option.some.inj hx]
        exact ⟨h2.2.1, h2.2.2.1, h2.2.2.2⟩
      · intro hx
        exact Option.some.inj hx

/-- Witness for C2 at concrete inputs: the token MM and the sentinel 99.0
both normalize to no value. -/
theorem c2_sentinel_normalization_witness :
    safeFloat "MM" = none ∧ safeFloat "99.0" = none :=
  ⟨(c2_sentinel_normalization "MM").1 (Or.inr (Or.inl (by decide))),
   (c2_sentinel_normalization "99.0").1
     (Or.inr (Or.inr (Or.inr (Or.inr (Or.inl (by decide))))))⟩

/-- C10 as amended: safeFloat is total and never returns NaN or a sentinel
value, and a genuine zero string yields zero, not no value; but an input
whose numeric prefix denotes Infinity yields an infinite value, so the
result is not always finite. -/
theorem c10_safeFloat_totality :
    (∀ (s : String) (x : JSNum), safeFloat s = some x →
        x ≠ JSNum.nan ∧ x ≠ JSNum.num 99 ∧ x ≠ JSNum.num 999 ∧ x ≠ JSNum.num 9999) ∧
    safeFloat "0" = some (JSNum.num 0) ∧
    safeFloat "0.0" = some (JSNum.num 0) ∧
    safeFloat "Infinity" = some (JSNum.inf true) := by
  refine ⟨?_, by decide, by decide, by decide⟩
  intro s x hx
  unfold safeFloat at hx
  by_cases h1 : s = "" ∨ jsTrim s = "MM" ∨ jsTrim s = ""
  · rw [if_pos h1] at hx
    exact Option.noConfusion hx
  · rw [if_neg h1] at hx
    by_cases h2 : parseFloat (jsTrim s) = JSNum.nan ∨ parseFloat (jsTrim s) = JSNum.num 99 ∨
        parseFloat (jsTrim s) = JSNum.num 999 ∨ parseFloat (jsTrim s) = JSNum.num 9999
    · rw [if_pos h2] at hx
      exact Option.noConfusion hx
    · rw [if_neg h2] at hx
      push_neg at h2
      rw [← Option.some.inj hx]
      exact ⟨h2.1, h2.2.1, h2.2.2.1, h2.2.2.2⟩

/-- Witness for C10 at a concrete input: 12.5 passes the filter and the
returned value is no sentinel. -/
theorem c10_safeFloat_totality_witness :
    safeFloat "12.5" = some (JSNum.num (mkRat 25 2)) ∧
      (JSNum.num (mkRat 25 2) ≠ JSNum.nan ∧ JSNum.num (mkRat 25 2) ≠ JSNum.num 99 ∧
        JSNum.num (mkRat 25 2) ≠ JSNum.num 999 ∧ JSNum.num (mkRat 25 2) ≠ JSNum.num 9999) :=
  ⟨by decide, c10_safeFloat_totality.1 "12.5" (JSNum.num (mkRat 25 2)) (by decide)⟩

/-- Counterexample for C10 as stated: the input Infinity makes safeFloat
return a number that is not finite (and not null), refuting the clause
that safeFloat returns either null or a finite number. -/
theorem c10_infinity_counterexample :
    safeFloat "Infinity" = some (JSNum.inf true) ∧
      JSNum.isFinite (JSNum.inf true) = false := by
  exact ⟨by decide, rfl⟩

/-- C7: the region assigned to a station identifier is determined solely by
its first two characters through the fixed REGION_MAP lookup (part one);
an identifier matching no table prefix maps to other (part two); an
identifier matching a table entry maps to that entry (part three).  The
function is total, so it never throws, and being a function it is
deterministic across runs. -/
theorem c7_region_classification :
    (∀ id₁ id₂ : String, id₁.data.take 2 = id₂.data.take 2 →
        classifyRegion id₁ = classifyRegion id₂) ∧
    (∀ id : String, (∀ e ∈ REGION_MAP, strStartsWith id e.1 = false) →
        classifyRegion id = "other") ∧
    (∀ (id : String) (e : String × String), e ∈ REGION_MAP →
        strStartsWith id e.1 = true → classifyRegion id = e.2) := by
  refine ⟨?_, ?_, ?_⟩
  · intro id₁ id₂ h
    have e₁ : classifyRegion id₁ = classifyRegion (String.mk (id₁.data.take 2)) :=
      classify_take_two id₁.data
    have e₂ : classifyRegion id₂ = classifyRegion (String.mk (id₂.data.take 2)) :=
      classify_take_two id₂.data
    rw [e₁, e₂, h]
  · intro id h
    unfold classifyRegion
    rw [List.find?_eq_none.mpr]
    intro e he
    rw [h e he]
    exact Bool.false_ne_true
  · intro id e he hpre
    simp only [REGION_MAP, List.mem_cons, List.not_mem_nil, or_false] at he
    have hid : classifyRegion id = classifyRegion (String.mk id.data) := rfl
    rcases he with rfl | rfl | rfl | rfl | rfl | rfl | rfl
    · obtain ⟨t, ht⟩ := (prefix2_iff _ _ id.data).mp hpre
      rw [hid, ht, classify_take_two]
      show classifyRegion (String.mk ['4', '1']) = "atlantic"
      decide
    · obtain ⟨t, ht⟩ := (prefix2_iff _ _ id.data).mp hpre
      rw [hid, ht, classify_take_two]
      show classifyRegion (String.mk ['4', '2']) = "gulf"
      decide
    · obtain ⟨t, ht⟩ := (prefix2_iff _ _ id.data).mp hpre
      rw [hid, ht, classify_take_two]
      show classifyRegion (String.mk ['4', '4']) = "atlantic"
      decide
    · obtain ⟨t, ht⟩ := (prefix2_iff _ _ id.data).mp hpre
      rw [hid, ht, classify_take_two]
      show classifyRegion (String.mk ['4', '5']) = "great_lakes"
      decide
    · obtain ⟨t, ht⟩ := (prefix2_iff _ _ id.data).mp hpre
      rw [hid, ht, classify_take_two]
      show classifyRegion (String.mk ['4', '6']) = "pacific"
      decide
    · obtain ⟨t, ht⟩ := (prefix2_iff _ _ id.data).mp hpre
      rw [hid, ht, classify_take_two]
      show classifyRegion (String.mk ['5', '1']) = "pacific"
      decide
    · obtain ⟨t, ht⟩ := (prefix2_iff _ _ id.data).mp hpre
      rw [hid, ht, classify_take_two]
      show classifyRegion (String.mk ['5', '2']) = "pacific"
      decide

/-- Witness for C7 at concrete identifiers: 46042 classifies to pacific by
its table entry and 99999 falls through to other. -/
theorem c7_region_classification_witness :
    classifyRegion "46042" = "pacific" ∧ classifyRegion "99999" = "other" :=
  ⟨c7_region_classification.2.2 "46042" ("46", "pacific") (by decide) (by decide),
   c7_region_classification.2.1 "99999" (by decide)⟩

/-- C4 as amended: a measurement batch whose write throws is caught,
contributes nothing to the table or the counter, and the remaining batches
still run (parts one to three characterize the whole loop: the counter
accumulates the sizes of every batch whose write did not throw, written or
not, and the table receives exactly the cleanly succeeding batches); but a
station batch whose write throws ends the run at once with no per-batch
handling (part four), and neither loop inspects the error value of the
client result, so the reported counts are attempted rows, not verified
successful writes. -/
theorem c4_batch_loop_behavior :
    (∀ (oc : Nat → WriteOutcome) (b : List MeasurementRow)
        (bs : List (List MeasurementRow)) (db : MeasDB) (cnt : Nat),
        oc 0 = WriteOutcome.threw →
        measLoop oc (b :: bs) db cnt = measLoop (fun i => oc (i + 1)) bs db cnt) ∧
    (∀ (oc : Nat → WriteOutcome) (bs : List (List MeasurementRow)) (db : MeasDB) (cnt : Nat),
        (measLoop oc bs db cnt).2 = cnt + attemptedCount oc bs) ∧
    (∀ (oc : Nat → WriteOutcome) (bs : List (List MeasurementRow)) (db : MeasDB) (cnt : Nat),
        (measLoop oc bs db cnt).1 = (writtenBatches oc bs).foldl applyMeasUpserts db) ∧
    (∀ (oc : Nat → WriteOutcome) (b : List StationRow)
        (bs : List (List StationRow)) (db : StationDB) (cnt : Nat),
        oc 0 = WriteOutcome.threw → stationLoop oc (b :: bs) db cnt = (db, cnt, false)) := by
  refine ⟨?_, ?_, ?_, ?_⟩
  · intro oc b bs db cnt h
    conv_lhs => rw [measLoop]
    rw [h]
  · intro oc bs
    induction bs generalizing oc with
    | nil => intro db cnt; simp [measLoop, attemptedCount]
    | cons b bs ih =>
      intro db cnt
      unfold measLoop attemptedCount
      cases h : oc 0 with
      | ok => rw [ih]; simp; omega
      | dbError => rw [ih]; simp; omega
      | threw => rw [ih]; simp
  · intro oc bs
    induction bs generalizing oc with
    | nil => intro db cnt; simp [measLoop, writtenBatches]
    | cons b bs ih =>
      intro db cnt
      unfold measLoop writtenBatches
      cases h : oc 0 with
      | ok => rw [ih]; rfl
      | dbError => rw [ih]; rfl
      | threw => rw [ih]; rfl
  · intro oc b bs db cnt h
    conv_lhs => rw [stationLoop]
    rw [h]

/-- Witness for C4 at a concrete run: a throwing station batch ends the
loop with the table and counter untouched. -/
theorem c4_batch_loop_behavior_witness :
    stationLoop (fun _ => WriteOutcome.threw) [[sampleStationA]] emptyStationDB 0 =
      (emptyStationDB, 0, false) :=
  c4_batch_loop_behavior.2.2.2 (fun _ => WriteOutcome.threw) [sampleStationA] []
    emptyStationDB 0 rfl

/-- Counterexample for C4 as stated: a thrown first station batch aborts
the loop, so the second batch is never written (refuting that a batch
failure does not abort the remaining batches), and a measurement batch
whose write reports a store error still adds its size to the counter while
writing nothing (refuting that the counts reflect only successfully
written rows). -/
theorem c4_batch_failure_counterexample :
    (stationLoop (fun i => if i = 0 then WriteOutcome.threw else WriteOutcome.ok)
        [[sampleStationA], [sampleStationB]] emptyStationDB 0).2.2 = false ∧
    (stationLoop (fun i => if i = 0 then WriteOutcome.threw else WriteOutcome.ok)
        [[sampleStationA], [sampleStationB]] emptyStationDB 0).1 "41002" = none ∧
    (measLoop (fun _ => WriteOutcome.dbError) [[sampleMeasurement]] emptyMeasDB 0).2 = 1 ∧
    (measLoop (fun _ => WriteOutcome.dbError) [[sampleMeasurement]] emptyMeasDB 0).1
        ("41001", "2026-01-01T00:00:00.000Z") = none :=
  ⟨rfl, rfl, rfl, rfl⟩

/-- C3 as amended: a thrown upstream fetch aborts the run through the outer
catch with no writes from the failed feed, and the handler terminates with
an error reply (HTTP 500, ok false) instead of crashing; but the
ingestion_log record is never updated on that path, keeping its initial
running status rather than being marked error.  Part three: no run ever
produces a log status other than running or success. -/
theorem c3_fetch_failure_behavior :
    (∀ (inp : RunInput) (sdb : StationDB) (mdb : MeasDB) (e : String),
        inp.stationFetch = Except.error e →
        runHandler inp sdb mdb =
          { sdb := sdb, mdb := mdb, log := initialLog inp, httpStatus := 500, httpOk := false }) ∧
    (∀ (inp : RunInput) (sdb : StationDB) (mdb : MeasDB) (e : String) (stext : String),
        inp.stationFetch = Except.ok stext →
        inp.obsFetch = Except.error e →
        (stationLoop inp.stationOutcomes (sliceBatches 200 (parseStations stext)) sdb 0).2.2 = true →
        (runHandler inp sdb mdb).mdb = mdb ∧
        (runHandler inp sdb mdb).log = initialLog inp ∧
        (runHandler inp sdb mdb).httpStatus = 500 ∧
        (runHandler inp sdb mdb).httpOk = false) ∧
    (∀ (inp : RunInput) (sdb : StationDB) (mdb : MeasDB) (rec : LogRec),
        (runHandler inp sdb mdb).log = some rec →
        rec.status = "running" ∨ rec.status = "success") := by
  refine ⟨?_, ?_, ?_⟩
  · intro inp sdb mdb e h
    unfold runHandler
    rw [h]
  · intro inp sdb mdb e stext hs ho hloop
    unfold runHandler
    rw [hs, ho]
    simp only [hloop]
    exact ⟨rfl, rfl, rfl, rfl⟩
  · intro inp sdb mdb rec
    have hinit : ∀ r : LogRec, initialLog inp = some r → r.status = "running" := by
      intro r hr
      unfold initialLog at hr
      by_cases hl : inp.logInsertOk
      · rw [if_pos hl] at hr
        rw [← Option.some.inj hr]
      · rw [if_neg hl] at hr
        exact Option.noConfusion hr
    unfold runHandler
    cases hsf : inp.stationFetch with
    | error e =>
      intro h
      exact Or.inl (hinit rec h)
    | ok stext =>
      dsimp only
      by_cases hloop :
          (stationLoop inp.stationOutcomes (sliceBatches 200 (parseStations stext)) sdb 0).2.2 = false
      · rw [if_pos hloop]
        intro h
        exact Or.inl (hinit rec h)
      · rw [if_neg hloop]
        cases hof : inp.obsFetch with
        | error e =>
          intro h
          exact Or.inl (hinit rec h)
        | ok mrows =>
          dsimp only
          intro h
          by_cases hl : inp.logInsertOk = true
          · rw [if_pos hl] at h
            right
            rw [← Option.some.inj h]
          · rw [if_neg hl] at h
            exact Option.noConfusion h

/-- Witness for C3 at a concrete run whose station fetch throws: the whole
result record of the aborted run. -/
theorem c3_fetch_failure_behavior_witness :
    runHandler c3SampleInput emptyStationDB emptyMeasDB =
      { sdb := emptyStationDB, mdb := emptyMeasDB, log := initialLog c3SampleInput,
        httpStatus := 500, httpOk := false } :=
  c3_fetch_failure_behavior.1 c3SampleInput emptyStationDB emptyMeasDB "network error" rfl

/-- Counterexample for C3 as stated: after a failed station fetch the run
log still reads running, not error, refuting the clause that the run is
marked with status error. -/
theorem c3_log_not_marked_error_counterexample :
    (runHandler c3SampleInput emptyStationDB emptyMeasDB).log =
      some { status := "running", stations_count := 0, measurements_count := 0 } ∧
    "running" ≠ "error" :=
  ⟨rfl, by decide⟩

theorem takeWhile_append_all {α : Type} {p : α → Bool} :
    ∀ {l r : List α}, (∀ x ∈ l, p x = true) → (l ++ r).takeWhile p = l ++ r.takeWhile p := by
  intro l
  induction l with
  | nil => intro r _; rfl
  | cons a l ih =>
    intro r h
    simp only [List.cons_append, List.takeWhile_cons]
    rw [h a (by simp)]
    simp only [if_true]
    rw [ih (fun x hx => h x (by simp [hx]))]

theorem ws_false_of_dir (c : Char) (h : isDirChar c = true) : isWS c = false := by
  unfold isDirChar at h
  simp only [Bool.or_eq_true, beq_iff_eq] at h
  rcases h with ((((((rfl | rfl) | rfl) | rfl) | rfl) | rfl) | rfl) | rfl <;> rfl

theorem matchNumDirAt_well_formed (ds : List Char) (c : Char) (hne : ds ≠ [])
    (hds : ∀ ch ∈ ds, isDigitDot ch = true) (hc : isDirChar c = true) :
    matchNumDirAt (ds ++ ' ' :: [c]) = some (ds, c) := by
  have h1 : (ds ++ ' ' :: [c]).takeWhile isDigitDot = ds := by
    rw [takeWhile_append_all hds]
    rw [show List.takeWhile isDigitDot (' ' :: [c]) = [] from rfl, List.append_nil]
  simp only [matchNumDirAt]
  rw [h1, if_neg hne, List.drop_left]
  rw [show List.dropWhile isWS (' ' :: [c]) = List.dropWhile isWS [c] from rfl]
  rw [List.dropWhile_cons, ws_false_of_dir c hc]
  simp only [Bool.false_eq_true, if_false]
  rw [hc]
  simp only [if_true]

theorem regexFindNumDir_well_formed (ds : List Char) (c : Char) (hne : ds ≠ [])
    (hds : ∀ ch ∈ ds, isDigitDot ch = true) (hc : isDirChar c = true) :
    regexFindNumDir (ds ++ ' ' :: [c]) = some (ds, c) := by
  cases ds with
  | nil => exact absurd rfl hne
  | cons d dtl =>
    show regexFindNumDir ((d :: dtl) ++ ' ' :: [c]) = _
    rw [List.cons_append, regexFindNumDir]
    rw [show (d :: (dtl ++ ' ' :: [c])) = ((d :: dtl) ++ ' ' :: [c]) from rfl]
    rw [matchNumDirAt_well_formed (d :: dtl) c hne hds hc]

theorem matchNumDirAt_none_of_no_dir (cs : List Char)
    (h : ∀ ch ∈ cs, isDirChar ch = false) : matchNumDirAt cs = none := by
  simp only [matchNumDirAt]
  by_cases hnum : cs.takeWhile isDigitDot = []
  · rw [if_pos hnum]
  · rw [if_neg hnum]
    cases hd : (cs.drop (cs.takeWhile isDigitDot).length).dropWhile isWS with
    | nil => rfl
    | cons d rest =>
      have hdmem : d ∈ cs := by
        have h1 : d ∈ (cs.drop (cs.takeWhile isDigitDot).length).dropWhile isWS := by
          rw [hd]; exact List.mem_cons_self d rest
        exact (List.drop_sublist _ _).subset ((List.dropWhile_sublist _).subset h1)
      dsimp only
      rw [h d hdmem]
      simp only [Bool.false_eq_true, if_false]

theorem regexFindNumDir_none_of_no_dir :
    ∀ cs : List Char, (∀ ch ∈ cs, isDirChar ch = false) → regexFindNumDir cs = none := by
  intro cs
  induction cs with
  | nil => intro _; rfl
  | cons c cs ih =>
    intro h
    rw [regexFindNumDir]
    rw [matchNumDirAt_none_of_no_dir (c :: cs) h]
    exact ih (fun ch hch => h ch (List.mem_cons_of_mem c hch))

/-- C5 as amended: for a token that is exactly a digits-and-points run, a
space and a compass letter, parseCoord returns the parsed number, negated
exactly when the letter is S or W in either case (part one); a token
containing no compass letter at all yields no value (part two).  The match
is unanchored, however, so surrounding characters do not prevent it, and a
points-only numeric part yields NaN: tokens that are not of the plain
NUMBER DIRECTION form can still produce a value (see the counterexample).
-/
theorem c5_coordinate_sign :
    (∀ (ds : List Char) (q : ℚ) (c : Char), ds ≠ [] →
        (∀ ch ∈ ds, isDigitDot ch = true) → parseFloatChars ds = JSNum.num q →
        isDirChar c = true →
        parseCoord (String.mk (ds ++ ' ' :: [c])) =
          some (JSNum.num (if c = 'S' ∨ c = 's' ∨ c = 'W' ∨ c = 'w' then -q else q))) ∧
    (∀ s : String, (∀ ch ∈ s.data, isDirChar ch = false) → parseCoord s = none) := by
  constructor
  · intro ds q c hne hds hq hc
    unfold parseCoord
    rw [show (String.mk (ds ++ ' ' :: [c])).data = ds ++ ' ' :: [c] from rfl]
    rw [regexFindNumDir_well_formed ds c hne hds hc]
    dsimp only
    rw [hq]
    by_cases hcond : c = 'S' ∨ c = 's' ∨ c = 'W' ∨ c = 'w'
    · rw [if_pos hcond, if_pos hcond]
      rfl
    · rw [if_neg hcond, if_neg hcond]
  · intro s h
    unfold parseCoord
    rw [regexFindNumDir_none_of_no_dir s.data h]

/-- Witness for C5 at the concrete tokens of the specification: 23.5 S
parses to minus 23.5, 23.5 N to plus 23.5, and a directionless token to no
value. -/
theorem c5_coordinate_sign_witness :
    parseCoord (String.mk ['2', '3', '.', '5', ' ', 'S']) = some (JSNum.num (-(mkRat 47 2))) ∧
    parseCoord (String.mk ['2', '3', '.', '5', ' ', 'N']) = some (JSNum.num (mkRat 47 2)) ∧
    parseCoord "72.7" = none := by
  refine ⟨?_, ?_, ?_⟩
  · have h := c5_coordinate_sign.1 ['2', '3', '.', '5'] (mkRat 47 2) 'S' (by decide) (by decide)
      (by decide) (by decide)
    exact h
  · have h := c5_coordinate_sign.1 ['2', '3', '.', '5'] (mkRat 47 2) 'N' (by decide) (by decide)
      (by decide) (by decide)
    exact h
  · exact c5_coordinate_sign.2 "72.7" (by decide)

/-- Counterexample for C5 as stated: the token x23.5 S is not of the form
NUMBER DIRECTION yet parses to minus 23.5 because the coordinate regex is
unanchored, and the malformed token whose numeric part is a lone point
returns NaN rather than no value. -/
theorem c5_unanchored_match_counterexample :
    parseCoord "x23.5 S" = some (JSNum.num (-(mkRat 47 2))) ∧
    parseCoord ". N" = some JSNum.nan := ⟨by decide, by decide⟩

theorem splitOnChar_ne_nil (sep : Char) (l : List Char) : splitOnChar sep l ≠ [] := by
  cases l with
  | nil => simp [splitOnChar]
  | cons c cs =>
    simp only [splitOnChar]
    split
    · simp
    · split <;> simp

theorem splitOnChar_cons_of_ne (sep c : Char) (cs : List Char) (h : ¬ c = sep) :
    ∃ hd tl, splitOnChar sep cs = hd :: tl ∧ splitOnChar sep (c :: cs) = (c :: hd) :: tl := by
  cases hs : splitOnChar sep cs with
  | nil => exact absurd hs (splitOnChar_ne_nil sep cs)
  | cons hd tl =>
    refine ⟨hd, tl, rfl, ?_⟩
    simp only [splitOnChar, if_neg h, hs]

theorem splitOnChar_cons_sep (sep : Char) (cs : List Char) :
    splitOnChar sep (sep :: cs) = [] :: splitOnChar sep cs := by
  simp [splitOnChar]

theorem dropWhile_append_singleton {p : Char → Bool} (a : Char) (h : p a = false) :
    ∀ l : List Char, (l ++ [a]).dropWhile p = l.dropWhile p ++ [a] := by
  intro l
  induction l with
  | nil => simp [List.dropWhile_cons, h]
  | cons b l ih =>
    simp only [List.cons_append, List.dropWhile_cons]
    split
    · exact ih
    · rfl

theorem trimChars_cons_of (c : Char) (x : List Char) (h : isWS c = false) :
    trimChars (c :: x) = c :: trimRightChars x := by
  unfold trimChars trimRightChars
  rw [List.dropWhile_cons, h]
  simp only [Bool.false_eq_true, if_false]
  rw [List.reverse_cons, dropWhile_append_singleton c h, List.reverse_append]
  rfl

theorem prefix1_iff (c : Char) (l : List Char) :
    [c].isPrefixOf l = true ↔ ∃ t, l = c :: t := by
  cases l with
  | nil => simp [List.isPrefixOf]
  | cons a t =>
    simp only [List.isPrefixOf, Bool.and_eq_true, beq_iff_eq]
    constructor
    · rintro ⟨rfl, -⟩
      exact ⟨t, rfl⟩
    · rintro ⟨t', ht⟩
      injection ht with h1 _
      refine ⟨h1.symm, ?_⟩
      simp [List.isPrefixOf]

theorem prefix3_iff (c₁ c₂ c₃ : Char) (l : List Char) :
    [c₁, c₂, c₃].isPrefixOf l = true ↔ ∃ t, l = c₁ :: c₂ :: c₃ :: t := by
  cases l with
  | nil => simp [List.isPrefixOf]
  | cons a l =>
    cases l with
    | nil => simp [List.isPrefixOf]
    | cons b l =>
      cases l with
      | nil => simp [List.isPrefixOf]
      | cons d t =>
        simp only [List.isPrefixOf, Bool.and_eq_true, beq_iff_eq]
        constructor
        · rintro ⟨rfl, rfl, rfl, -⟩
          exact ⟨t, rfl⟩
        · rintro ⟨t', ht⟩
          injection ht with h1 ht
          injection ht with h2 ht
          injection ht with h3 _
          refine ⟨h1.symm, h2.symm, h3.symm, ?_⟩
          simp [List.isPrefixOf]

theorem mk_cons_ne_empty (c : Char) (y : List Char) : ¬ String.mk (c :: y) = "" := by
  intro h
  have := congrArg String.data h
  exact List.noConfusion this

theorem is5Digits_head_not_digit (c : Char) (y : List Char) (h : c.isDigit = false) :
    is5Digits (String.mk (c :: y)) = false := by
  simp [is5Digits, h]

theorem stationParts_of_trim_empty (line : String) (h : jsTrim line = "") :
    stationParts line = [] := by
  unfold stationParts
  rw [h]
  decide

theorem stationParts_hash (line : String) (h : strStartsWith (jsTrim line) "#" = true) :
    ∃ y rest, stationParts line = String.mk ('#' :: y) :: rest := by
  obtain ⟨t, ht⟩ := (prefix1_iff '#' (jsTrim line).data).mp h
  obtain ⟨hd, tl, hsp, hsp2⟩ := splitOnChar_cons_of_ne '|' '#' t (by decide)
  unfold stationParts jsSplit
  rw [ht, hsp2]
  simp only [List.map_cons, List.filter_cons]
  have htr : jsTrim (String.mk ('#' :: hd)) = String.mk ('#' :: trimRightChars hd) := by
    unfold jsTrim
    rw [show (String.mk ('#' :: hd)).data = '#' :: hd from rfl]
    rw [trimChars_cons_of '#' hd (by decide)]
  rw [htr]
  rw [decide_eq_true (mk_cons_ne_empty '#' (trimRightChars hd))]
  simp only [if_true]
  exact ⟨trimRightChars hd, _, rfl⟩

theorem stationParts_pipedash (line : String)
    (h : strStartsWith (jsTrim line) "|--" = true) :
    ∃ y rest, stationParts line = String.mk ('-' :: y) :: rest := by
  obtain ⟨t, ht⟩ := (prefix3_iff '|' '-' '-' (jsTrim line).data).mp h
  obtain ⟨hd, tl, hsp, hsp2⟩ := splitOnChar_cons_of_ne '|' '-' ('-' :: t) (by decide)
  unfold stationParts jsSplit
  rw [ht, splitOnChar_cons_sep, hsp2]
  simp only [List.map_cons, List.filter_cons]
  have h0 : (decide (¬ jsTrim (String.mk []) = "")) = false := by decide
  rw [h0]
  simp only [Bool.false_eq_true, if_false]
  have htr : jsTrim (String.mk ('-' :: hd)) = String.mk ('-' :: trimRightChars hd) := by
    unfold jsTrim
    rw [show (String.mk ('-' :: hd)).data = '-' :: hd from rfl]
    rw [trimChars_cons_of '-' hd (by decide)]
  rw [htr]
  rw [decide_eq_true (mk_cons_ne_empty '-' (trimRightChars hd))]
  simp only [if_true]
  exact ⟨trimRightChars hd, _, rfl⟩

theorem not_accepted_of_guard (line : String)
    (h : jsTrim line = "" ∨ strStartsWith (jsTrim line) "#" = true ∨
      strStartsWith (jsTrim line) "|--" = true) :
    ¬ stationLineAccepted line := by
  intro hacc
  obtain ⟨h4, h5, -, -⟩ := hacc
  rcases h with h | h | h
  · rw [stationParts_of_trim_empty line h] at h4
    simp at h4
  · obtain ⟨y, rest, hp⟩ := stationParts_hash line h
    rw [hp] at h5
    rw [show (String.mk ('#' :: y) :: rest).getD 0 "" = String.mk ('#' :: y) from rfl] at h5
    rw [is5Digits_head_not_digit '#' y (by decide)] at h5
    exact Bool.noConfusion h5
  · obtain ⟨y, rest, hp⟩ := stationParts_pipedash line h
    rw [hp] at h5
    rw [show (String.mk ('-' :: y) :: rest).getD 0 "" = String.mk ('-' :: y) from rfl] at h5
    rw [is5Digits_head_not_digit '-' y (by decide)] at h5
    exact Bool.noConfusion h5

theorem parseStationLine_isSome_iff (line : String) :
    (parseStationLine line).isSome = true ↔ stationLineAccepted line := by
  unfold parseStationLine
  by_cases hg : jsTrim line = "" ∨ strStartsWith (jsTrim line) "#" = true ∨
      strStartsWith (jsTrim line) "|--" = true
  · rw [if_pos hg]
    simp only [Option.isSome_none, Bool.false_eq_true, false_iff]
    exact not_accepted_of_guard line hg
  · rw [if_neg hg]
    dsimp only
    by_cases h4 : (stationParts line).length < 4
    · rw [if_pos h4]
      simp only [Option.isSome_none, Bool.false_eq_true, false_iff]
      intro hacc
      have := hacc.1
      omega
    · rw [if_neg h4]
      by_cases h5 : is5Digits ((stationParts line).getD 0 "") = true
      · rw [if_neg (not_not_intro h5)]
        cases hlat : parseCoord ((stationParts line).getD 2 "") with
        | none =>
          simp only [Option.isSome_none, Bool.false_eq_true, false_iff]
          intro hacc
          have := hacc.2.2.1
          rw [hlat] at this
          exact Bool.noConfusion this
        | some lat =>
          cases hlon : parseCoord ((stationParts line).getD 3 "") with
          | none =>
            simp only [Option.isSome_none, Bool.false_eq_true, false_iff]
            intro hacc
            have := hacc.2.2.2
            rw [hlon] at this
            exact Bool.noConfusion this
          | some lon =>
            simp only [Option.isSome_some, true_iff]
            exact ⟨by omega, h5, by rw [hlat]; rfl, by rw [hlon]; rfl⟩
      · rw [if_pos h5]
        simp only [Option.isSome_none, Bool.false_eq_true, false_iff]
        intro hacc
        exact h5 hacc.2.1

theorem parseStationLine_name_le (line : String) (r : StationRow)
    (h : parseStationLine line = some r) : r.name.data.length ≤ 200 := by
  unfold parseStationLine at h
  dsimp only at h
  split at h
  · exact Option.noConfusion h
  · split at h
    · exact Option.noConfusion h
    · split at h
      · exact Option.noConfusion h
      · split at h
        · rw [← Option.some.inj h]
          show (jsSubstrTo 200 _).data.length ≤ 200
          unfold jsSubstrTo
          rw [show (String.mk ((((stationParts line).getD 1 "").data.take 200))).data =
            (((stationParts line).getD 1 "").data.take 200) from rfl]
          rw [List.length_take]
          exact min_le_left _ _
        · exact Option.noConfusion h
        · exact Option.noConfusion h

/-- C9: the station parser emits a record for a line exactly when, after
trimming and splitting on the pipe, at least four nonempty trimmed fields
remain, the first is five digits, and both coordinate tokens parse (part
one; the comment, separator and empty line guards of the source are
subsumed, since such lines always fail the five-digit test or the field
count); every emitted display name is truncated to at most 200 characters
(part two); and the parser is the per-line body folded over all lines,
skipped lines contributing nothing and never aborting the batch (part
three). -/
theorem c9_station_acceptance :
    (∀ line : String, (parseStationLine line).isSome = true ↔ stationLineAccepted line) ∧
    (∀ (line : String) (r : StationRow), parseStationLine line = some r →
        r.name.data.length ≤ 200) ∧
    (∀ text : String, parseStations text = (jsSplit '\n' text).filterMap parseStationLine) :=
  ⟨parseStationLine_isSome_iff, parseStationLine_name_le, fun _ => rfl⟩

/-- Witness for C9 at concrete lines: the example buoy line is accepted,
and a comment line, a separator line and a short line are all rejected. -/
theorem c9_station_acceptance_witness :
    ((parseStationLine "41001 | LLNR 815 | 34.7 N | 72.7 W | x").isSome = true) ∧
    (¬ (parseStationLine "# STATION_ID | OWNER | NAME").isSome = true) ∧
    (¬ (parseStationLine "|----|----|").isSome = true) ∧
    (¬ (parseStationLine "SHIP1|foo|1 N|2 E|y").isSome = true) :=
  ⟨(c9_station_acceptance.1 "41001 | LLNR 815 | 34.7 N | 72.7 W | x").mpr (by decide),
   fun h => absurd ((c9_station_acceptance.1 "# STATION_ID | OWNER | NAME").mp h) (by decide),
   fun h => absurd ((c9_station_acceptance.1 "|----|----|").mp h) (by decide),
   fun h => absurd ((c9_station_acceptance.1 "SHIP1|foo|1 N|2 E|y").mp h) (by decide)⟩

theorem parseStationLine_coords (line : String) (r : StationRow)
    (h : parseStationLine line = some r) :
    parseCoord ((stationParts line).getD 2 "") = some r.latitude ∧
    parseCoord ((stationParts line).getD 3 "") = some r.longitude := by
  unfold parseStationLine at h
  dsimp only at h
  split at h
  · exact Option.noConfusion h
  · split at h
    · exact Option.noConfusion h
    · split at h
      · exact Option.noConfusion h
      · split at h
        next lat lon hlat hlon =>
          rw [← Option.some.inj h]
          exact ⟨by rw [hlat], by rw [hlon]⟩
        next => exact Option.noConfusion h
        next => exact Option.noConfusion h

/-- C6 as amended: the parser copies the parseCoord value of the latitude
and longitude tokens into the station record with no range check (part
one), so the record coordinates lie in the documented ranges exactly when
the parsed token values do (parts two and three); the schema declares no
range constraint either, so nothing restores the invariant at persistence,
and a token with magnitude beyond the range produces an out-of-range
station (see the counterexample). -/
theorem c6_coordinate_passthrough :
    ∀ (line : String) (r : StationRow), parseStationLine line = some r →
      (parseCoord ((stationParts line).getD 2 "") = some r.latitude ∧
        parseCoord ((stationParts line).getD 3 "") = some r.longitude) ∧
      ((∃ q : ℚ, r.latitude = JSNum.num q ∧ -90 ≤ q ∧ q ≤ 90) ↔
        (∃ q : ℚ, parseCoord ((stationParts line).getD 2 "") = some (JSNum.num q) ∧
          -90 ≤ q ∧ q ≤ 90)) ∧
      ((∃ q : ℚ, r.longitude = JSNum.num q ∧ -180 ≤ q ∧ q ≤ 180) ↔
        (∃ q : ℚ, parseCoord ((stationParts line).getD 3 "") = some (JSNum.num q) ∧
          -180 ≤ q ∧ q ≤ 180)) := by
  intro line r h
  have hc := parseStationLine_coords line r h
  refine ⟨hc, ?_, ?_⟩
  · rw [hc.1]
    simp
  · rw [hc.2]
    simp

/-- Witness for C6 at the example line of the specification: the parsed
station carries exactly the signed token values 34.7 and minus 72.7. -/
theorem c6_coordinate_passthrough_witness :
    parseCoord ((stationParts "41001|LLNR 815|34.7 N|72.7 W|x").getD 2 "") =
      some c6SampleRow.latitude ∧
    parseCoord ((stationParts "41001|LLNR 815|34.7 N|72.7 W|x").getD 3 "") =
      some c6SampleRow.longitude :=
  (c6_coordinate_passthrough "41001|LLNR 815|34.7 N|72.7 W|x" c6SampleRow (by decide)).1

/-- Counterexample for C6 as stated: a station-table line whose latitude
token reads 123.4 N parses into a station record with latitude 123.4,
outside the closed interval from minus 90 to 90. -/
theorem c6_out_of_range_counterexample :
    (parseStations "12345|X|123.4 N|72.7 W|x").map StationRow.latitude =
      [JSNum.num (mkRat 617 5)] ∧
    ¬ (mkRat 617 5 ≤ (90 : ℚ)) := ⟨by decide, by decide⟩

/-- C8: the bounding box query returns exactly the active stations whose
coordinates lie within the box, both bounds inclusive, each row built by
joining the station to its latest measurement (part one); the result is
ordered by station name (part two); and an inverted box, minimum above
maximum on either axis, yields an empty result rather than an error (part
three). -/
theorem c8_bbox_query :
    ∀ (pminLat pminLon pmaxLat pmaxLon : ℚ) (stations : List DbStation)
      (measurements : List DbMeasurement),
      (∀ row : BBoxRow,
        row ∈ get_stations_in_bbox pminLat pminLon pmaxLat pmaxLon stations measurements ↔
          ∃ s ∈ stations, s.is_active = true ∧
            pminLat ≤ s.latitude ∧ s.latitude ≤ pmaxLat ∧
            pminLon ≤ s.longitude ∧ s.longitude ≤ pmaxLon ∧
            row = bboxRowOf s (latestMeasurement measurements s.id)) ∧
      List.Sorted bboxLE
        (get_stations_in_bbox pminLat pminLon pmaxLat pmaxLon stations measurements) ∧
      (pmaxLat < pminLat ∨ pmaxLon < pminLon →
        get_stations_in_bbox pminLat pminLon pmaxLat pmaxLon stations measurements = []) := by
  intro pminLat pminLon pmaxLat pmaxLon stations measurements
  refine ⟨?_, ?_, ?_⟩
  · intro row
    unfold get_stations_in_bbox
    dsimp only
    rw [(List.perm_insertionSort bboxLE _).mem_iff]
    simp only [List.mem_map, List.mem_filter, Bool.and_eq_true, decide_eq_true_eq]
    constructor
    · rintro ⟨s, ⟨hmem, ⟨⟨⟨⟨hact, h1⟩, h2⟩, h3⟩, h4⟩⟩, hrow⟩
      exact ⟨s, hmem, hact, h1, h2, h3, h4, hrow.symm⟩
    · rintro ⟨s, hmem, hact, h1, h2, h3, h4, hrow⟩
      exact ⟨s, ⟨hmem, ⟨⟨⟨⟨hact, h1⟩, h2⟩, h3⟩, h4⟩⟩, hrow.symm⟩
  · unfold get_stations_in_bbox
    dsimp only
    exact List.sorted_insertionSort bboxLE _
  · intro hcase
    unfold get_stations_in_bbox
    dsimp only
    have hfil : stations.filter (fun s =>
        s.is_active && decide (pminLat ≤ s.latitude) && decide (s.latitude ≤ pmaxLat)
          && decide (pminLon ≤ s.longitude) && decide (s.longitude ≤ pmaxLon)) = [] := by
      rw [List.filter_eq_nil_iff]
      intro s hs
      simp only [Bool.and_eq_true, decide_eq_true_eq]
      rintro ⟨⟨⟨⟨hact, h1⟩, h2⟩, h3⟩, h4⟩
      rcases hcase with hc | hc
      · linarith
      · linarith
    rw [hfil]
    rfl

/-- Witness for C8 at a concrete inverted box over one active station: the
query returns the empty list. -/
theorem c8_bbox_query_witness :
    get_stations_in_bbox 10 10 0 0 [sampleDbStation] [] = [] :=
  (c8_bbox_query 10 10 0 0 [sampleDbStation] []).2.2 (Or.inl (by decide))
